import Mathlib

/- Verification of the Lin-Interface-Library LIN 2.2A master stack.

   Shallow embedding of the three protocol layers:
   - frame transfer layer (src/src/LinFrameTransfer.cpp): checksum engine,
     protected identifier codec, FrameReader byte state machine;
   - transport layer (src/src/LinTransportLayer.cpp with src/src/LinPDU.hpp):
     segmentation of a payload into Single/First/Consecutive PDUs and the
     receive/reassembly loop readPduResponse;
   - node configuration layer (src/src/LinNodeConfig.cpp): request builders
     and positive/negative response classification.

   Machine integers are embedded as Nat with explicit reductions: a cast to
   uint8_t is written  % 256, a cast to uint16_t is written  % 65536, and the
   C bit operations &, |, >>, << are written  &&&, |||, >>>, <<< . -/

namespace Lin

/-! ## Checksum engine (src/src/LinFrameTransfer.cpp, lines 470..502) -/

/-- LinFrameTransfer::getChecksumEnhanced. The accumulator is a uint16_t
initialized with the protectedID parameter (a uint8_t); every data byte is
added with 16-bit wrap-around; the carry is folded twice; the final value is
complemented and truncated to a byte. The uint8_t cast of the complement of
a uint16_t value s is 255 - s % 256. -/
def getChecksumEnhanced (protectedID : Nat) (data : List Nat) : Nat :=
  let sum := data.foldl (fun s b => (s + b) % 65536) (protectedID % 65536)
  let sum := sum % 256 + sum / 256
  let sum := (sum + sum / 256) % 65536
  255 - sum % 256

/-- LinFrameTransfer::getChecksumClassic: classic checksum, ProtectedID
excluded, the sum starts at 0. -/
def getChecksumClassic (data : List Nat) : Nat :=
  getChecksumEnhanced 0x00 data

/-- LinFrameTransfer::getChecksumLin13: always includes the ProtectedID. -/
def getChecksumLin13 (protectedID : Nat) (data : List Nat) : Nat :=
  getChecksumEnhanced protectedID data

/-- LinFrameTransfer::getChecksumLin2x: classic checksum for
(protectedID & FRAME_ID_MASK) >= MASTER_REQUEST (0x3C), enhanced checksum
seeded with the ProtectedID otherwise. -/
def getChecksumLin2x (protectedID : Nat) (data : List Nat) : Nat :=
  if 0x3C ≤ protectedID &&& 0x3F then getChecksumEnhanced 0x00 data
  else getChecksumEnhanced protectedID data

/-! ## Identifier codec (src/src/LinFrameTransfer.cpp, lines 334..345) -/

/-- Arduino bitRead: bit i of x. -/
def bitRead (x i : Nat) : Nat :=
  (x >>> i) &&& 1

/-- LinFrameTransfer::getProtectedID. In the source p1 is a uint8_t holding
the C bitwise complement of a 0/1 int, i.e. 255 - bit; the final int
expression (p1 << 7) | (p0 << 6) | (frameID & 0x3F) is truncated to the
uint8_t return type. -/
def getProtectedID (frameID : Nat) : Nat :=
  let p0 := bitRead frameID 0 ^^^ bitRead frameID 1 ^^^ bitRead frameID 2 ^^^
    bitRead frameID 4
  let p1 := 255 - (bitRead frameID 1 ^^^ bitRead frameID 3 ^^^ bitRead frameID 4 ^^^
    bitRead frameID 5)
  ((p1 <<< 7) ||| (p0 <<< 6) ||| (frameID &&& 0x3F)) % 256

/-- The checksum a frame with FrameID frameID gets on the wire:
writeFrame and readFrame convert the FrameID to the ProtectedID and hand it
to getChecksumLin2x (src/src/LinFrameTransfer.cpp, lines 197..205 and 290..299). -/
def checksum_for_frame (frameID : Nat) (data : List Nat) : Nat :=
  getChecksumLin2x (getProtectedID frameID) data

/-- Modelled from the spec: the source has no separate validation routine
(the frame reader validates a received checksum byte by recomputing the
checksum over the received data, src/src/LinFrameTransfer.cpp lines 129..152);
spec.md section 4.B describes validation as: the sum of the received bytes --
including the received ProtectedID when the enhanced checksum applies, that
is for ProtectedID & 0x3F below 0x3C -- plus the received checksum, carry
folded, equals 0xFF. The sum is accumulated in the same 16-bit register the
checksum algorithm of section 4.B uses and the comparison is on the folded
8-bit value. -/
def spec_validate (protectedID : Nat) (data : List Nat) (checksum : Nat) : Bool :=
  let covered := if 0x3C ≤ protectedID &&& 0x3F then data else protectedID :: data
  let sum := covered.foldl (fun s b => (s + b) % 65536) 0 + checksum
  let folded := sum % 256 + sum / 256
  decide ((folded + folded / 256) % 256 = 0xFF)

/-! ## Checksum validation identity (claims C2, C3) -/

/-- Carry folding of a 16-bit sum plus the matching checksum byte always
folds back to 0xFF in the low byte, stated over the decomposition
S0 = 256 * b + a of the accumulated sum. -/
lemma fold_aux (a b : Nat) (ha : a < 256) (hb : b < 256) :
    ((256 * b + a + (255 - ((a + b + (a + b) / 256) % 65536) % 256)) % 256 +
     (256 * b + a + (255 - ((a + b + (a + b) / 256) % 65536) % 256)) / 256 +
     ((256 * b + a + (255 - ((a + b + (a + b) / 256) % 65536) % 256)) % 256 +
      (256 * b + a + (255 - ((a + b + (a + b) / 256) % 65536) % 256)) / 256) / 256) % 256
    = 255 := by
  rcases Nat.lt_or_ge (a + b) 256 with hs | hs
  · rw [Nat.div_eq_of_lt hs, Nat.add_zero,
      Nat.mod_eq_of_lt (show a + b < 65536 by omega),
      Nat.mod_eq_of_lt hs]
    have hT : 256 * b + a + (255 - (a + b)) = 256 * b + (255 - b) := by omega
    rw [hT, Nat.mul_add_mod, Nat.mod_eq_of_lt (show 255 - b < 256 by omega),
      Nat.mul_add_div (by norm_num), Nat.div_eq_of_lt (show 255 - b < 256 by omega),
      Nat.add_zero]
    have h255 : 255 - b + b = 255 := by omega
    rw [h255]
  · have e1 : (a + b) / 256 = 1 := by omega
    rw [e1, Nat.mod_eq_of_lt (show a + b + 1 < 65536 by omega)]
    have e3 : (a + b + 1) % 256 = a + b + 1 - 256 := by omega
    rw [e3]
    rcases Nat.lt_or_ge b 255 with hb2 | hb2
    · have hT : 256 * b + a + (255 - (a + b + 1 - 256)) = 256 * (b + 1) + (254 - b) := by
        omega
      rw [hT, Nat.mul_add_mod, Nat.mod_eq_of_lt (show 254 - b < 256 by omega),
        Nat.mul_add_div (by norm_num), Nat.div_eq_of_lt (show 254 - b < 256 by omega),
        Nat.add_zero]
      have h255 : 254 - b + (b + 1) = 255 := by omega
      rw [h255]
    · have hb3 : b = 255 := by omega
      have hT : 256 * b + a + (255 - (a + b + 1 - 256)) = 65535 := by omega
      rw [hT]

/-- The same identity stated over the raw accumulated sum. -/
lemma chk_fold (S0 : Nat) (h : S0 < 65536) :
    ((S0 + (255 - ((S0 % 256 + S0 / 256 + (S0 % 256 + S0 / 256) / 256) % 65536) % 256)) % 256 +
     (S0 + (255 - ((S0 % 256 + S0 / 256 + (S0 % 256 + S0 / 256) / 256) % 65536) % 256)) / 256 +
     ((S0 + (255 - ((S0 % 256 + S0 / 256 + (S0 % 256 + S0 / 256) / 256) % 65536) % 256)) % 256 +
      (S0 + (255 - ((S0 % 256 + S0 / 256 + (S0 % 256 + S0 / 256) / 256) % 65536) % 256)) / 256) / 256) % 256
    = 255 := by
  have ha : S0 % 256 < 256 := Nat.mod_lt _ (by norm_num)
  have hb : S0 / 256 < 256 := Nat.div_lt_of_lt_mul (by omega)
  have := fold_aux (S0 % 256) (S0 / 256) ha hb
  rwa [Nat.div_add_mod S0 256] at this

/-- The 16-bit accumulator stays below 65536. -/
lemma foldl_sum_lt (l : List Nat) : ∀ init : Nat, init < 65536 →
    l.foldl (fun s b => (s + b) % 65536) init < 65536 := by
  induction l with
  | nil => intro init h; simpa using h
  | cons x xs ih =>
      intro init h
      exact ih _ (Nat.mod_lt _ (by norm_num))

/-- C2: for every protected ID and every list of data bytes, the checksum
produced by the checksum engine validates against what it covers: the 8-bit
end-around-carry folded sum of the covered bytes (the protected ID included
exactly in the enhanced case) plus the produced checksum byte equals 0xFF,
i.e. spec_validate pid data (getChecksumLin2x pid data) holds. -/
theorem c2_checksum_validates (protectedID : Nat) (data : List Nat)
    (hpid : protectedID < 256) :
    spec_validate protectedID data (getChecksumLin2x protectedID data) = true := by
  have hinit : protectedID % 65536 = protectedID := Nat.mod_eq_of_lt (by omega)
  by_cases hcl : 0x3C ≤ protectedID &&& 0x3F
  · simp only [spec_validate, getChecksumLin2x, getChecksumEnhanced, if_pos hcl,
      Nat.zero_mod, decide_eq_true_eq]
    exact chk_fold _ (foldl_sum_lt data 0 (by norm_num))
  · simp only [spec_validate, getChecksumLin2x, getChecksumEnhanced, if_neg hcl,
      List.foldl_cons, Nat.zero_add, hinit, decide_eq_true_eq]
    exact chk_fold _ (foldl_sum_lt data protectedID (by omega))

/-- Witness for C2 at a concrete frame: ProtectedID 0x24 (FrameID 0x24),
data bytes of the sleep command. -/
theorem c2_checksum_validates_witness :
    (0x24 : Nat) < 256 ∧
    spec_validate 0x24 [0x00, 0xFF, 0xFF, 0xFF, 0xFF, 0xFF, 0xFF, 0xFF]
      (getChecksumLin2x 0x24 [0x00, 0xFF, 0xFF, 0xFF, 0xFF, 0xFF, 0xFF, 0xFF]) = true :=
  ⟨by norm_num, c2_checksum_validates 0x24 _ (by norm_num)⟩

set_option maxRecDepth 4096 in
/-- The parity bits added by getProtectedID do not disturb the low six bits. -/
lemma getProtectedID_mask (frameID : Nat) (h : frameID < 256) :
    getProtectedID frameID &&& 0x3F = frameID &&& 0x3F := by
  revert h
  revert frameID
  decide

/-- C3: the checksum policy selects the classic checksum (sum started at 0,
ProtectedID excluded) exactly when frameID & 0x3F is at least 0x3C (so for
0x3C, 0x3D and the reserved 0x3E/0x3F), and the enhanced checksum (sum
seeded with the ProtectedID) for frameID & 0x3F in 0x00..0x3B. -/
theorem c3_checksum_policy (frameID : Nat) (data : List Nat) (h : frameID < 256) :
    checksum_for_frame frameID data =
      if 0x3C ≤ frameID &&& 0x3F then getChecksumEnhanced 0x00 data
      else getChecksumEnhanced (getProtectedID frameID) data := by
  unfold checksum_for_frame getChecksumLin2x
  rw [getProtectedID_mask frameID h]

/-- Witness for C3 at the diagnostic master-request FrameID 0x3C and at the
signal FrameID 0x10. -/
theorem c3_checksum_policy_witness :
    ((0x3C : Nat) < 256 ∧
      checksum_for_frame 0x3C [0x00, 0xFF] =
        if 0x3C ≤ (0x3C : Nat) &&& 0x3F then getChecksumEnhanced 0x00 [0x00, 0xFF]
        else getChecksumEnhanced (getProtectedID 0x3C) [0x00, 0xFF]) ∧
    ((0x10 : Nat) < 256 ∧
      checksum_for_frame 0x10 [0x12] =
        if 0x3C ≤ (0x10 : Nat) &&& 0x3F then getChecksumEnhanced 0x00 [0x12]
        else getChecksumEnhanced (getProtectedID 0x10) [0x12]) :=
  ⟨⟨by norm_num, c3_checksum_policy 0x3C _ (by norm_num)⟩,
   ⟨by norm_num, c3_checksum_policy 0x10 _ (by norm_num)⟩⟩

/-! ## PDU codec and segmentation
(src/src/LinTransportLayer.cpp lines 50..115, src/src/LinPDU.hpp)

A PDU is embedded as its 8-byte wire image, the list PDU::asVector produces:
NAD, PCI byte, six (SF/CF) or length-low-byte plus five (FF) further bytes. -/

/-- PDU::getNAD: first byte. -/
def pduNAD (f : List Nat) : Nat :=
  f.getD 0 0

/-- The PCI byte of a PDU: second byte. -/
def pduPCI (f : List Nat) : Nat :=
  f.getD 1 0

/-- PDU::getType: PCI byte masked with MASK_PCI_TYPE (0xF0). SINGLE = 0x00,
FIRST = 0x10, CONSECUTIVE = 0x20. -/
def pduType (f : List Nat) : Nat :=
  pduPCI f &&& 0xF0

/-- SingleFrame::getLen: low nibble of the PCI byte. -/
def singleFrameLen (f : List Nat) : Nat :=
  pduPCI f &&& 0x0F

/-- SingleFrame::getData: the first getLen data bytes. -/
def singleFrameData (f : List Nat) : List Nat :=
  (f.drop 2).take (singleFrameLen f)

/-- FirstFrame::getLen: (PCI_LEN_MSB & MASK_PCI_LEN) << 8 | LEN_LSB. -/
def firstFrameLen (f : List Nat) : Nat :=
  ((pduPCI f &&& 0x0F) <<< 8) ||| f.getD 2 0

/-- FirstFrame::getData: the five data bytes after NAD, PCI and LEN_LSB. -/
def firstFrameData (f : List Nat) : List Nat :=
  (f.drop 3).take 5

/-- ConsecutiveFrame::getSequenceNumber: low nibble of the PCI byte. -/
def cfSeqNr (f : List Nat) : Nat :=
  pduPCI f &&& 0x0F

/-- ConsecutiveFrame::getData(len): min(6, len) data bytes. -/
def cfData (f : List Nat) (len : Nat) : List Nat :=
  (f.drop 2).take (min 6 len)

/-- fillSingleFrame: setNAD plus SingleFrame::setDataAndLen, which copies
min(6, payload size) bytes, encodes that length in the PCI low nibble and
fills the unused tail with 0xFF. -/
def singleFramePDU (NAD : Nat) (payload : List Nat) : List Nat :=
  let len := min 6 payload.length
  NAD :: (0x00 ||| (len &&& 0x0F)) :: (payload.take len ++ List.replicate (6 - len) 0xFF)

/-- fillFirstFrame: setNAD, FirstFrame::setLen (PCI_LEN_MSB carries the type
nibble ORed with the uint8 cast of len >> 8, LEN_LSB the low byte) and
FirstFrame::setData, which always copies the first five payload bytes. -/
def firstFramePDU (NAD : Nat) (payload : List Nat) : List Nat :=
  NAD :: (0x10 ||| ((payload.length >>> 8) % 256)) :: (payload.length % 256) ::
    payload.take 5

/-- fillConsecutiveFrame: setNAD, ConsecutiveFrame::setSequenceNumber
(type nibble ORed with the sequence number low nibble) and
ConsecutiveFrame::setData, which copies min(6, size - offset) bytes starting
at the offset and fills the unused tail with 0xFF. -/
def consecutiveFramePDU (NAD seqNr : Nat) (payload : List Nat) (offset : Nat) :
    List Nat :=
  let len := min 6 (payload.length - offset)
  NAD :: (0x20 ||| (seqNr &&& 0x0F)) ::
    ((payload.drop offset).take len ++ List.replicate (6 - len) 0xFF)

/-- LinTransportLayer::framesetFromPayload. A payload of at most 6 bytes
becomes one single frame; otherwise a first frame is followed by
CF_count = ceil((size - 5) / 6) consecutive frames with sequence numbers
1, 2, ... and offsets 5, 11, ... (every consecutive frame before the last
copies exactly 6 bytes, so the running bytesWritten of the source equals
5 + 6 * i when the i-th consecutive frame is filled).

The source iterates with  for (uint8_t i = 1; i <= CF_count; ++i) : when
CF_count is at least 255 the uint8_t counter can never exceed CF_count
(it wraps from 255 to 0), the loop never terminates and the function never
returns a frameset; that divergence is embedded as none. -/
def framesetFromPayload (NAD : Nat) (payload : List Nat) :
    Option (List (List Nat)) :=
  if payload.length ≤ 6 then
    some [singleFramePDU NAD payload]
  else
    let data_in_CF := payload.length - 5
    let CF_count := (data_in_CF + 6 - 1) / 6
    if 255 ≤ CF_count then
      none
    else
      some (firstFramePDU NAD payload ::
        (List.range CF_count).map (fun i =>
          consecutiveFramePDU NAD (i + 1) payload (5 + 6 * i)))

lemma or_type_single : ∀ m < 16, (0x00 ||| m) &&& 0xF0 = 0x00 := by decide

lemma or_type_first : ∀ m < 16, (0x10 ||| m) &&& 0xF0 = 0x10 := by decide

lemma or_type_cf : ∀ m < 16, (0x20 ||| m) &&& 0xF0 = 0x20 := by decide

/-- C1 (amended): for payloads of at most 1529 bytes the frameset exists and
consists of exactly one PDU (a Single Frame) iff the payload has at most 6
bytes, and otherwise of 1 + ceil((len - 5) / 6) PDUs: one First Frame
followed by that many Consecutive Frames, each PDU being 8 bytes. For 1530
bytes or more the uint8_t loop counter of the source wraps and no frameset
is produced (see c1_counterexample). -/
theorem c1_frameset_segmentation (NAD : Nat) (payload : List Nat)
    (hlen : payload.length ≤ 1529) :
    ∃ fs, framesetFromPayload NAD payload = some fs ∧
      (fs.length = 1 ↔ payload.length ≤ 6) ∧
      (∀ f ∈ fs, f.length = 8) ∧
      (payload.length ≤ 6 → pduType fs.headI = 0x00) ∧
      (6 < payload.length →
        fs.length = 1 + (payload.length - 5 + 5) / 6 ∧
        pduType fs.headI = 0x10 ∧
        ∀ f ∈ fs.tail, pduType f = 0x20) := by
  by_cases h6 : payload.length ≤ 6
  · refine ⟨[singleFramePDU NAD payload], ?_, ?_, ?_, ?_, ?_⟩
    · simp [framesetFromPayload, h6]
    · simpa using h6
    · intro f hf
      simp only [List.mem_singleton] at hf
      subst hf
      have hmin : min 6 payload.length ≤ payload.length := Nat.min_le_right _ _
      simp [singleFramePDU, List.length_take, List.length_append]
    · intro _
      have hnib : min 6 payload.length &&& 0x0F < 16 :=
        Nat.lt_succ_of_le Nat.and_le_right
      simpa [singleFramePDU, pduType, pduPCI] using
        or_type_single (min 6 payload.length &&& 0x0F) hnib
    · intro h
      omega
  · push_neg at h6
    set L := payload.length with hL
    have hcf : ¬ 255 ≤ (L - 5 + 6 - 1) / 6 := by omega
    refine ⟨firstFramePDU NAD payload ::
        (List.range ((L - 5 + 6 - 1) / 6)).map (fun i =>
          consecutiveFramePDU NAD (i + 1) payload (5 + 6 * i)), ?_, ?_, ?_, ?_, ?_⟩
    · simp only [framesetFromPayload, ← hL]
      rw [if_neg (by omega), if_neg hcf]
    · simp only [List.length_cons, List.length_map, List.length_range]
      omega
    · intro f hf
      rcases List.mem_cons.mp hf with hf | hf
      · subst hf
        simp [firstFramePDU, List.length_take]
        omega
      · obtain ⟨i, hi, rfl⟩ := List.mem_map.mp hf
        have hmin : min 6 (L - (5 + 6 * i)) ≤ L - (5 + 6 * i) := Nat.min_le_right _ _
        simp [consecutiveFramePDU, List.length_take, List.length_append,
          List.length_drop, ← hL]
    · intro h
      omega
    · intro _
      refine ⟨by simp [List.length_map, List.length_range]; omega, ?_, ?_⟩
      · have hsh : (L >>> 8) % 256 < 16 := by
          rw [Nat.shiftRight_eq_div_pow]
          omega
        simpa [firstFramePDU, pduType, pduPCI] using
          or_type_first ((L >>> 8) % 256) hsh
      · intro f hf
        simp only [List.tail_cons] at hf
        obtain ⟨i, hi, rfl⟩ := List.mem_map.mp hf
        have hnib : (i + 1) &&& 0x0F < 16 := Nat.lt_succ_of_le Nat.and_le_right
        simpa [consecutiveFramePDU, pduType, pduPCI] using
          or_type_cf ((i + 1) &&& 0x0F) hnib

/-- Witness for C1: the 14-byte payload of spec.md scenario 6 splits into a
First Frame and two Consecutive Frames. -/
theorem c1_frameset_segmentation_witness :
    (List.replicate 14 (0x11 : Nat)).length ≤ 1529 ∧
    ∃ fs, framesetFromPayload 0x7F (List.replicate 14 (0x11 : Nat)) = some fs ∧
      (fs.length = 1 ↔ (List.replicate 14 (0x11 : Nat)).length ≤ 6) ∧
      (∀ f ∈ fs, f.length = 8) ∧
      ((List.replicate 14 (0x11 : Nat)).length ≤ 6 → pduType fs.headI = 0x00) ∧
      (6 < (List.replicate 14 (0x11 : Nat)).length →
        fs.length = 1 + ((List.replicate 14 (0x11 : Nat)).length - 5 + 5) / 6 ∧
        pduType fs.headI = 0x10 ∧
        ∀ f ∈ fs.tail, pduType f = 0x20) :=
  ⟨by simp, c1_frameset_segmentation 0x7F _ (by simp)⟩

/-- C1 counterexample: a 1530-byte payload needs 255 consecutive frames;
the source loop  for (uint8_t i = 1; i <= CF_count; ++i)  then never
terminates (the uint8_t counter wraps from 255 to 0 and stays at most 255),
so framesetFromPayload produces no frameset at all, while the claim promises
1 + ceil((1530 - 5) / 6) = 256 PDUs. -/
theorem c1_counterexample :
    framesetFromPayload 0x01 (List.replicate 1530 (0x00 : Nat)) = none := by
  unfold framesetFromPayload
  rw [List.length_replicate]
  norm_num

/-! ## Transport layer receive machine
(src/src/LinTransportLayer.cpp, lines 120..265)

readPduResponse keeps a local state of acceptedNAD (a uint8_t, initially the
caller NAD), frameCounter (a uint8_t, 0 while expecting SF or FF), the
announced total length and the growing payload. The loop body reads one
slave-response frame per iteration; real time (millis based deadlines) is
abstracted away: the input list holds the outcomes of the successive
readFrame calls that happen before the deadline expires, and exhausting the
list models the deadline. -/

structure RxState where
  acceptedNAD : Nat
  frameCounter : Nat
  announcedBytes : Nat
  payload : List Nat
deriving DecidableEq, Repr

inductive RxStep where
  | next (s : RxState)
  | done (s : RxState)
  | abort
deriving DecidableEq, Repr

/-- The NAD replacement at the top of the frameCounter == 0 branch
(src/src/LinTransportLayer.cpp lines 148..154): the received NAD is adopted
when the current acceptedNAD is the broadcast wildcard or the received NAD
equals the newNAD argument. -/
def adoptedNAD0 (s : RxState) (newNAD rxNAD : Nat) : Nat :=
  if s.acceptedNAD = 0x7F ∨ rxNAD = newNAD then rxNAD else s.acceptedNAD

/-- LinTransportLayer::readSingleFrame: a single frame announcing more than
6 bytes is rejected, otherwise the payload is replaced by its data. -/
def readSingleFrame (f : List Nat) : Option (List Nat) :=
  if 6 < singleFrameLen f then none else some (singleFrameData f)

/-- LinTransportLayer::readFirstFrame: a first frame announcing at most
6 bytes is rejected, otherwise the five data bytes are appended. The
vector reserve/capacity test of the source is an allocation guard that
succeeds on the empty payload every first frame in a terminating exchange
sees; it is not modelled. -/
def readFirstFrame (f : List Nat) (payload : List Nat) : Option (List Nat × Nat) :=
  let announced := firstFrameLen f
  if announced ≤ 6 then none
  else some (payload ++ firstFrameData f, announced)

/-- LinTransportLayer::readConsecutiveFrame: the sequence number (low PCI
nibble) must equal frameCounter & 0x0F, then min(6, remaining) bytes are
appended. -/
def readConsecutiveFrame (f : List Nat) (payload : List Nat)
    (announced frameCounter : Nat) : Option (List Nat) :=
  if cfSeqNr f = frameCounter &&& 0x0F then
    some (payload ++ cfData f (announced - payload.length))
  else none

/-- One loop iteration of readPduResponse on a successfully read 8-byte
frame. The frameCounter is a uint8_t, so its increment wraps at 256. The
completion test compares the announced length with the payload length after
the append. -/
def pduStep (callerNAD newNAD : Nat) (s : RxState) (f : List Nat) : RxStep :=
  if s.frameCounter = 0 then
    if adoptedNAD0 s newNAD (pduNAD f) ≠ pduNAD f then
      .next { s with acceptedNAD := adoptedNAD0 s newNAD (pduNAD f) }
    else if pduType f = 0x00 then
      match readSingleFrame f with
      | none => .next { s with acceptedNAD := callerNAD }
      | some p =>
          .done { s with
            acceptedNAD := adoptedNAD0 s newNAD (pduNAD f)
            payload := p }
    else if pduType f = 0x10 then
      match readFirstFrame f s.payload with
      | none => .next { s with acceptedNAD := callerNAD }
      | some (p, announced) =>
          .next { acceptedNAD := adoptedNAD0 s newNAD (pduNAD f)
                  frameCounter := (s.frameCounter + 1) % 256
                  announcedBytes := announced
                  payload := p }
    else
      .next { s with acceptedNAD := callerNAD }
  else
    if s.acceptedNAD ≠ pduNAD f then .abort
    else if pduType f ≠ 0x20 then .abort
    else
      match readConsecutiveFrame f s.payload s.announcedBytes s.frameCounter with
      | none => .abort
      | some p =>
          if s.announcedBytes = p.length then
            .done { s with
              payload := p
              frameCounter := (s.frameCounter + 1) % 256 }
          else
            .next { s with
              payload := p
              frameCounter := (s.frameCounter + 1) % 256 }

/-- One loop iteration on a readFrame outcome: a failed read or a frame that
is not exactly 8 bytes is skipped (the loop continues unchanged). -/
def rxStep (callerNAD newNAD : Nat) (s : RxState) (rx : Option (List Nat)) : RxStep :=
  match rx with
  | none => .next s
  | some f => if f.length = 8 then pduStep callerNAD newNAD s f else .next s

/-- The state in which the loop ends: some s when the loop runs to the
deadline (input exhausted) or breaks on completion, none when it returns
Err from inside (the strict consecutive-frame checks). -/
def rxLoopEnd (callerNAD newNAD : Nat) (s : RxState) :
    List (Option (List Nat)) → Option RxState
  | [] => some s
  | rx :: rest =>
    match rxStep callerNAD newNAD s rx with
    | .next s2 => rxLoopEnd callerNAD newNAD s2 rest
    | .done s2 => some s2
    | .abort => none

/-- The loop-head states the receive loop visits (the state in force when
each successive readFrame outcome is examined, plus the state at the
deadline when the input runs out). -/
def rxLoopStates (callerNAD newNAD : Nat) (s : RxState) :
    List (Option (List Nat)) → List RxState
  | [] => [s]
  | rx :: rest =>
    s :: (match rxStep callerNAD newNAD s rx with
          | .next s2 => rxLoopStates callerNAD newNAD s2 rest
          | _ => [])

def rxInit (callerNAD : Nat) : RxState :=
  ⟨callerNAD, 0, 0, []⟩

/-- LinTransportLayer::readPduResponse: run the loop from the initial state;
an empty payload at the end is Err; on success the caller NAD variable is
updated to acceptedNAD exactly when the caller passed broadcast or a
non-zero newNAD. Returns the payload together with the final value of the
caller NAD variable. -/
def readPduResponse (callerNAD newNAD : Nat) (frames : List (Option (List Nat))) :
    Option (List Nat × Nat) :=
  match rxLoopEnd callerNAD newNAD (rxInit callerNAD) frames with
  | none => none
  | some s =>
    if s.payload = [] then none
    else some (s.payload,
      if callerNAD = 0x7F ∨ newNAD ≠ 0 then s.acceptedNAD else callerNAD)

/-! ## Receive loop invariants (claims C6, C7) -/

/-- When the NAD replacement does not yield the received NAD, the accepted
NAD is unchanged. -/
lemma adoptedNAD0_ne (s : RxState) (newNAD rxNAD : Nat)
    (h : adoptedNAD0 s newNAD rxNAD ≠ rxNAD) :
    adoptedNAD0 s newNAD rxNAD = s.acceptedNAD := by
  unfold adoptedNAD0 at h ⊢
  by_cases hc : s.acceptedNAD = 0x7F ∨ rxNAD = newNAD
  · rw [if_pos hc] at h
    exact absurd rfl h
  · rw [if_neg hc]

/-- A continuing step grows the frame counter by at most one and can only
keep the counter at 0 by leaving the accepted NAD alone or reverting it to
the caller NAD. -/
lemma pduStep_next_props (callerNAD newNAD : Nat) (s : RxState) (f : List Nat)
    (s2 : RxState) (h : pduStep callerNAD newNAD s f = RxStep.next s2)
    (hc : s.frameCounter ≤ 254) :
    s2.frameCounter ≤ s.frameCounter + 1 ∧
      (s2.frameCounter = 0 →
        s.frameCounter = 0 ∧
          (s2.acceptedNAD = s.acceptedNAD ∨ s2.acceptedNAD = callerNAD)) := by
  unfold pduStep at h
  by_cases h0 : s.frameCounter = 0
  · rw [if_pos h0] at h
    by_cases hne : adoptedNAD0 s newNAD (pduNAD f) ≠ pduNAD f
    · rw [if_pos hne] at h
      injection h with h
      subst h
      exact ⟨by simp [h0], fun _ =>
        ⟨h0, Or.inl (by simp [adoptedNAD0_ne s newNAD (pduNAD f) hne])⟩⟩
    · rw [if_neg hne] at h
      by_cases hsf : pduType f = 0x00
      · rw [if_pos hsf] at h
        cases hrd : readSingleFrame f with
        | none =>
            rw [hrd] at h
            injection h with h
            subst h
            exact ⟨by simp [h0], fun _ => ⟨h0, Or.inr rfl⟩⟩
        | some p =>
            rw [hrd] at h
            exact absurd h (by simp)
      · rw [if_neg hsf] at h
        by_cases hff : pduType f = 0x10
        · rw [if_pos hff] at h
          cases hrd : readFirstFrame f s.payload with
          | none =>
              rw [hrd] at h
              injection h with h
              subst h
              exact ⟨by simp [h0], fun _ => ⟨h0, Or.inr rfl⟩⟩
          | some pa =>
              obtain ⟨p, announced⟩ := pa
              rw [hrd] at h
              injection h with h
              subst h
              refine ⟨by simp [h0], fun hz => ?_⟩
              simp [h0] at hz
        · rw [if_neg hff] at h
          injection h with h
          subst h
          exact ⟨by simp [h0], fun _ => ⟨h0, Or.inr rfl⟩⟩
  · rw [if_neg h0] at h
    by_cases hnad : s.acceptedNAD ≠ pduNAD f
    · rw [if_pos hnad] at h
      exact absurd h (by simp)
    · rw [if_neg hnad] at h
      by_cases hty : pduType f ≠ 0x20
      · rw [if_pos hty] at h
        exact absurd h (by simp)
      · rw [if_neg hty] at h
        cases hrd : readConsecutiveFrame f s.payload s.announcedBytes s.frameCounter with
        | none =>
            rw [hrd] at h
            exact absurd h (by simp)
        | some p =>
            rw [hrd] at h
            dsimp only at h
            by_cases hdone : s.announcedBytes = p.length
            · rw [if_pos hdone] at h
              exact absurd h (by simp)
            · rw [if_neg hdone] at h
              injection h with h
              subst h
              have hmod : (s.frameCounter + 1) % 256 = s.frameCounter + 1 :=
                Nat.mod_eq_of_lt (by omega)
              refine ⟨by simp [hmod], fun hz => ?_⟩
              simp [hmod] at hz

/-- rxStep version of pduStep_next_props: skipped inputs keep the state. -/
lemma rxStep_next_props (callerNAD newNAD : Nat) (s : RxState)
    (rx : Option (List Nat)) (s2 : RxState)
    (h : rxStep callerNAD newNAD s rx = RxStep.next s2)
    (hc : s.frameCounter ≤ 254) :
    s2.frameCounter ≤ s.frameCounter + 1 ∧
      (s2.frameCounter = 0 →
        s.frameCounter = 0 ∧
          (s2.acceptedNAD = s.acceptedNAD ∨ s2.acceptedNAD = callerNAD)) := by
  unfold rxStep at h
  cases rx with
  | none =>
      injection h with h
      subst h
      exact ⟨by omega, fun hz => ⟨hz, Or.inl rfl⟩⟩
  | some f =>
      simp only at h
      split at h
      · exact pduStep_next_props callerNAD newNAD s f s2 h hc
      · injection h with h
        subst h
        exact ⟨by omega, fun hz => ⟨hz, Or.inl rfl⟩⟩

/-- In a run of at most 255 frames the counter never wraps, so every
loop-head state with frameCounter = 0 still carries the caller NAD as its
accepted NAD. -/
lemma rxLoopStates_counter0 (callerNAD newNAD : Nat) :
    ∀ (frames : List (Option (List Nat))) (s : RxState),
      s.frameCounter + frames.length ≤ 255 →
      (s.frameCounter = 0 → s.acceptedNAD = callerNAD) →
      ∀ t ∈ rxLoopStates callerNAD newNAD s frames,
        t.frameCounter = 0 → t.acceptedNAD = callerNAD := by
  intro frames
  induction frames with
  | nil =>
      intro s hb hi t ht h0
      simp only [rxLoopStates, List.mem_singleton] at ht
      subst ht
      exact hi h0
  | cons rx rest ih =>
      intro s hb hi t ht h0
      simp only [rxLoopStates] at ht
      rcases List.mem_cons.mp ht with rfl | ht2
      · exact hi h0
      · cases hstep : rxStep callerNAD newNAD s rx with
        | next s2 =>
            rw [hstep] at ht2
            have hc : s.frameCounter ≤ 254 := by
              simp only [List.length_cons] at hb
              omega
            obtain ⟨hle, h00⟩ := rxStep_next_props callerNAD newNAD s rx s2 hstep hc
            refine ih s2 ?_ ?_ t ht2 h0
            · simp only [List.length_cons] at hb
              omega
            · intro hz
              rcases h00 hz with ⟨hs0, hacc | hacc⟩
              · rw [hacc]
                exact hi hs0
              · exact hacc
        | done s2 =>
            rw [hstep] at ht2
            simp at ht2
        | abort =>
            rw [hstep] at ht2
            simp at ht2

/-- C6 (amended): in a run of at most 255 read outcomes, at every loop-head
state still waiting for the first response frame (frameCounter = 0) the
accepted NAD equals the caller NAD, and hence the NAD replacement adopts the
received NAD exactly when the caller NAD is the broadcast wildcard 0x7F or
the received NAD equals the newNAD argument; and on successful completion
the caller NAD variable is set to the adopted responder NAD exactly when the
caller supplied broadcast or a non-zero newNAD, and is left unchanged
otherwise. (With 256 or more frames the uint8_t frameCounter can wrap back
to 0 and the replacement then tests the drifted accepted NAD instead of the
caller NAD, see c6_counterexample.) -/
theorem c6_nad_adoption_and_update (callerNAD newNAD : Nat)
    (frames : List (Option (List Nat))) (hlen : frames.length ≤ 255) :
    (∀ t ∈ rxLoopStates callerNAD newNAD (rxInit callerNAD) frames,
        t.frameCounter = 0 →
          t.acceptedNAD = callerNAD ∧
          ∀ rxNAD, adoptedNAD0 t newNAD rxNAD =
            if callerNAD = 0x7F ∨ rxNAD = newNAD then rxNAD else callerNAD) ∧
    (∀ p nadOut, readPduResponse callerNAD newNAD frames = some (p, nadOut) →
        (¬ (callerNAD = 0x7F ∨ newNAD ≠ 0) → nadOut = callerNAD) ∧
        ((callerNAD = 0x7F ∨ newNAD ≠ 0) →
          ∃ s, rxLoopEnd callerNAD newNAD (rxInit callerNAD) frames = some s ∧
            nadOut = s.acceptedNAD)) := by
  constructor
  · intro t ht h0
    have hacc := rxLoopStates_counter0 callerNAD newNAD frames (rxInit callerNAD)
      (by simpa [rxInit] using hlen) (fun _ => rfl) t ht h0
    refine ⟨hacc, fun rxNAD => ?_⟩
    unfold adoptedNAD0
    rw [hacc]
  · intro p nadOut h
    unfold readPduResponse at h
    cases hle : rxLoopEnd callerNAD newNAD (rxInit callerNAD) frames with
    | none =>
        rw [hle] at h
        exact absurd h (by simp)
    | some s =>
        rw [hle] at h
        dsimp only at h
        by_cases hp : s.payload = []
        · rw [if_pos hp] at h
          exact absurd h (by simp)
        · rw [if_neg hp] at h
          injection h with h
          have h1 : s.payload = p := congrArg Prod.fst h
          have h2 : (if callerNAD = 0x7F ∨ newNAD ≠ 0 then s.acceptedNAD
              else callerNAD) = nadOut := congrArg Prod.snd h
          constructor
          · intro hnot
            rw [← h2, if_neg hnot]
          · intro hyes
            exact ⟨s, rfl, by rw [← h2, if_pos hyes]⟩

/-- Witness for C6: a single valid single-frame response from NAD 0x0A to a
broadcast request. -/
theorem c6_nad_adoption_and_update_witness :
    ([some [0x0A, 0x01, 0xF2, 0xFF, 0xFF, 0xFF, 0xFF, 0xFF]] :
        List (Option (List Nat))).length ≤ 255 ∧
    ((∀ t ∈ rxLoopStates 0x7F 0 (rxInit 0x7F)
          [some [0x0A, 0x01, 0xF2, 0xFF, 0xFF, 0xFF, 0xFF, 0xFF]],
        t.frameCounter = 0 →
          t.acceptedNAD = 0x7F ∧
          ∀ rxNAD, adoptedNAD0 t 0 rxNAD =
            if (0x7F : Nat) = 0x7F ∨ rxNAD = 0 then rxNAD else 0x7F) ∧
    (∀ p nadOut, readPduResponse 0x7F 0
          [some [0x0A, 0x01, 0xF2, 0xFF, 0xFF, 0xFF, 0xFF, 0xFF]] = some (p, nadOut) →
        (¬ ((0x7F : Nat) = 0x7F ∨ (0 : Nat) ≠ 0) → nadOut = 0x7F) ∧
        (((0x7F : Nat) = 0x7F ∨ (0 : Nat) ≠ 0) →
          ∃ s, rxLoopEnd 0x7F 0 (rxInit 0x7F)
              [some [0x0A, 0x01, 0xF2, 0xFF, 0xFF, 0xFF, 0xFF, 0xFF]] = some s ∧
            nadOut = s.acceptedNAD))) :=
  ⟨by norm_num, c6_nad_adoption_and_update 0x7F 0 _ (by norm_num)⟩

/-- First frame of the counterexample run: NAD 0x0A announcing 0x604 = 1540
payload bytes. -/
def c6ffFrame : List Nat :=
  [0x0A, 0x16, 0x04, 0x01, 0x02, 0x03, 0x04, 0x05]

/-- The consecutive frame with (0-based) position i of the counterexample
run: NAD 0x0A, sequence number i + 1 in the low PCI nibble, six 0x00 data
bytes. -/
def c6cfFrame (i : Nat) : List Nat :=
  [0x0A, 0x20 ||| ((i + 1) &&& 0x0F), 0, 0, 0, 0, 0, 0]

/-- k read outcomes: the consecutive frames with positions j, j+1, ...,
j+k-1. -/
def c6cfList : Nat → Nat → List (Option (List Nat))
  | _, 0 => []
  | j, k + 1 => some (c6cfFrame j) :: c6cfList (j + 1) k

/-- A run of 256 valid frames: the first frame followed by 255 in-sequence
consecutive frames, which leaves 1535 of the announced 1540 bytes assembled
and wraps the uint8_t frameCounter from 255 back to 0. -/
def c6Frames : List (Option (List Nat)) :=
  some c6ffFrame :: c6cfList 0 255

/-- The loop-head state after the 256 frames of c6Frames. -/
def c6WrapState : RxState :=
  (rxLoopStates 0x7F 0 (rxInit 0x7F) c6Frames).getLastD (rxInit 0x7F)

/-- The reassembled bytes after the first frame and j consecutive frames of
the counterexample run. -/
def c6Payload (j : Nat) : List Nat :=
  [0x01, 0x02, 0x03, 0x04, 0x05] ++ List.replicate (6 * j) 0x00

/-- The receive-loop state after the first frame and j consecutive frames
of the counterexample run: responder NAD adopted, uint8_t counter j + 1
(wrapping at 256), 1540 announced bytes. -/
def c6State (j : Nat) : RxState :=
  ⟨0x0A, (j + 1) % 256, 0x604, c6Payload j⟩

lemma or_sn_low : ∀ m < 16, (0x20 ||| m) &&& 0x0F = m := by decide

lemma c6_pci (j : Nat) : pduPCI (c6cfFrame j) = 0x20 ||| ((j + 1) &&& 0x0F) := by
  simp [pduPCI, c6cfFrame]

lemma c6_step (j : Nat) (hj : j ≤ 254) :
    rxStep 0x7F 0 (c6State j) (some (c6cfFrame j)) =
      RxStep.next (c6State (j + 1)) := by
  have hcnt : (j + 1) % 256 = j + 1 := Nat.mod_eq_of_lt (by omega)
  have hlen : (c6cfFrame j).length = 8 := by simp [c6cfFrame]
  have hnib : (j + 1) &&& 0x0F < 16 := Nat.lt_succ_of_le Nat.and_le_right
  simp only [rxStep]
  rw [if_pos hlen]
  unfold pduStep
  rw [if_neg (show ¬ (c6State j).frameCounter = 0 by simp [c6State]; omega)]
  rw [if_neg (show ¬ (c6State j).acceptedNAD ≠ pduNAD (c6cfFrame j) by
    simp [c6State, pduNAD, c6cfFrame])]
  have hty : pduType (c6cfFrame j) = 0x20 := by
    rw [pduType, c6_pci]
    exact or_type_cf _ hnib
  rw [if_neg (show ¬ pduType (c6cfFrame j) ≠ 0x20 by simp [hty])]
  have hsq : cfSeqNr (c6cfFrame j) = (c6State j).frameCounter &&& 0x0F := by
    rw [cfSeqNr, c6_pci, or_sn_low _ hnib]
    simp only [c6State, hcnt]
  have hdata : cfData (c6cfFrame j)
      ((c6State j).announcedBytes - (c6State j).payload.length) =
      List.replicate 6 0x00 := by
    have hplen : (c6State j).payload.length = 5 + 6 * j := by
      simp only [c6State, c6Payload, List.length_append, List.length_cons,
        List.length_nil, List.length_replicate]
    rw [cfData, hplen]
    have hmin : min 6 ((c6State j).announcedBytes - (5 + 6 * j)) = 6 := by
      simp only [c6State]
      omega
    rw [hmin]
    rfl
  have hrd : readConsecutiveFrame (c6cfFrame j) (c6State j).payload
      (c6State j).announcedBytes (c6State j).frameCounter =
      some (c6Payload (j + 1)) := by
    rw [readConsecutiveFrame, if_pos hsq, hdata]
    have h6 : 6 * (j + 1) = 6 * j + 6 := by ring
    simp only [c6State, c6Payload, h6, List.replicate_add, List.append_assoc]
  rw [hrd]
  dsimp only
  rw [if_neg (show ¬ (c6State j).announcedBytes = (c6Payload (j + 1)).length by
    simp only [c6State, c6Payload, List.length_append, List.length_cons,
      List.length_nil, List.length_replicate]
    omega)]
  have hfc : ((j + 1) % 256 + 1) % 256 = (j + 1 + 1) % 256 := by rw [hcnt]
  simp only [c6State]
  rw [hfc]

lemma c6_run : ∀ (k j : Nat) (d : RxState), j + k = 255 →
    (rxLoopStates 0x7F 0 (c6State j) (c6cfList j k)).getLastD d =
      c6State 255 := by
  intro k
  induction k with
  | zero =>
      intro j d hj
      have hj255 : j = 255 := by omega
      subst hj255
      rfl
  | succ k ih =>
      intro j d hj
      show (rxLoopStates 0x7F 0 (c6State j)
        (some (c6cfFrame j) :: c6cfList (j + 1) k)).getLastD d = c6State 255
      simp only [rxLoopStates]
      rw [c6_step j (by omega)]
      rw [List.getLastD_cons]
      exact ih (j + 1) (c6State j) (by omega)

set_option maxRecDepth 8192 in
lemma c6WrapState_eq : c6WrapState = c6State 255 := by
  have hstep : rxStep 0x7F 0 (rxInit 0x7F) (some c6ffFrame) =
      RxStep.next (c6State 0) := by decide
  have hcons : rxLoopStates 0x7F 0 (rxInit 0x7F)
      (some c6ffFrame :: c6cfList 0 255) =
      rxInit 0x7F :: rxLoopStates 0x7F 0 (c6State 0) (c6cfList 0 255) := by
    rw [rxLoopStates, hstep]
  show (rxLoopStates 0x7F 0 (rxInit 0x7F)
    (some c6ffFrame :: c6cfList 0 255)).getLastD (rxInit 0x7F) = c6State 255
  rw [hcons, List.getLastD_cons]
  exact c6_run 255 0 (rxInit 0x7F) rfl

/-- C6 counterexample: processing the 256 in-sequence frames of c6Frames
under caller NAD 0x7F (broadcast) and newNAD 0 reaches a loop-head state
whose uint8_t frameCounter has wrapped back to 0 while the accepted NAD has
drifted to the responder NAD 0x0A; a further frame received from NAD 0x0B
is then NOT adopted (the source tests the drifted accepted NAD, not the
caller NAD), although the claim promises adoption whenever the caller NAD
is the broadcast wildcard 0x7F. -/
theorem c6_counterexample :
    c6WrapState.frameCounter = 0 ∧
    c6WrapState.acceptedNAD = 0x0A ∧
    adoptedNAD0 c6WrapState 0 0x0B = 0x0A ∧
    (0x0B : Nat) ≠ 0x0A := by
  rw [c6WrapState_eq]
  refine ⟨by decide, rfl, ?_, by decide⟩
  rw [adoptedNAD0]
  simp only [c6State]
  decide

/-- C7: once a First Frame has been accepted (frameCounter at least 1), a
received slave-response frame whose NAD differs from the accepted NAD, or
whose PCI type is not Consecutive Frame (0x20), or whose sequence number
(low PCI nibble) differs from frameCounter & 0x0F, makes the receive loop
return Err immediately, whatever frames would follow (readPduResponse maps
the none loop outcome to Err); whereas before the First Frame (frameCounter
= 0) a frame whose NAD is not adopted and does not match is merely ignored:
the loop continues on the remaining input with the state unchanged. -/
theorem c7_cf_phase_strict (callerNAD newNAD : Nat) (s t : RxState)
    (f g : List Nat) (rest : List (Option (List Nat))) :
    (1 ≤ s.frameCounter → f.length = 8 →
      (pduNAD f ≠ s.acceptedNAD ∨ pduType f ≠ 0x20 ∨
        cfSeqNr f ≠ s.frameCounter &&& 0x0F) →
      rxLoopEnd callerNAD newNAD s (some f :: rest) = none) ∧
    (t.frameCounter = 0 → g.length = 8 →
      ¬ (t.acceptedNAD = 0x7F ∨ pduNAD g = newNAD) →
      pduNAD g ≠ t.acceptedNAD →
      rxLoopEnd callerNAD newNAD t (some g :: rest) =
        rxLoopEnd callerNAD newNAD t rest) := by
  constructor
  · intro hc hf8 hmis
    have habort : pduStep callerNAD newNAD s f = RxStep.abort := by
      unfold pduStep
      rw [if_neg (by omega : ¬ s.frameCounter = 0)]
      by_cases h1 : s.acceptedNAD ≠ pduNAD f
      · rw [if_pos h1]
      · rw [if_neg h1]
        by_cases h2 : pduType f ≠ 0x20
        · rw [if_pos h2]
        · rw [if_neg h2]
          push_neg at h1 h2
          have h3 : cfSeqNr f ≠ s.frameCounter &&& 0x0F := by
            rcases hmis with hm | hm | hm
            · exact absurd h1.symm hm
            · exact absurd h2 hm
            · exact hm
          unfold readConsecutiveFrame
          rw [if_neg h3]
    simp only [rxLoopEnd, rxStep, if_pos hf8, habort]
  · intro h0 hg8 hno hne
    have hstep : pduStep callerNAD newNAD t g = RxStep.next t := by
      unfold pduStep
      rw [if_pos h0]
      have hado : adoptedNAD0 t newNAD (pduNAD g) = t.acceptedNAD := by
        unfold adoptedNAD0
        rw [if_neg hno]
      rw [hado, if_pos (Ne.symm hne)]
    simp only [rxLoopEnd, rxStep, if_pos hg8, hstep]

/-- Witness for C7: a consecutive-frame phase state receiving a frame from
the wrong NAD aborts; a waiting state receiving a foreign NAD ignores it. -/
theorem c7_cf_phase_strict_witness :
    rxLoopEnd 0x01 0 ⟨0x0A, 1, 20, [1, 2, 3, 4, 5]⟩
      [some [0x0B, 0x21, 0, 0, 0, 0, 0, 0]] = none ∧
    rxLoopEnd 0x01 0 ⟨0x01, 0, 0, []⟩
      (some [0x05, 0x06, 0, 0, 0, 0, 0, 0] :: []) =
      rxLoopEnd 0x01 0 ⟨0x01, 0, 0, []⟩ [] :=
  ⟨(c7_cf_phase_strict 0x01 0 ⟨0x0A, 1, 20, [1, 2, 3, 4, 5]⟩ ⟨0x01, 0, 0, []⟩
      [0x0B, 0x21, 0, 0, 0, 0, 0, 0] [0x05, 0x06, 0, 0, 0, 0, 0, 0] []).1
      (by decide) (by decide) (Or.inl (by decide)),
   (c7_cf_phase_strict 0x01 0 ⟨0x0A, 1, 20, [1, 2, 3, 4, 5]⟩ ⟨0x01, 0, 0, []⟩
      [0x0B, 0x21, 0, 0, 0, 0, 0, 0] [0x05, 0x06, 0, 0, 0, 0, 0, 0] []).2
      (by decide) (by decide) (by decide) (by decide)⟩

/-! ## writePDU send phase (src/src/LinTransportLayer.cpp, lines 34..48)

writePDU builds the frameset, calls writeFrame(MASTER_REQUEST = 0x3C,
frame.asVector()) for every frame of it -- discarding the boolean writeFrame
returns -- and then unconditionally calls readPduResponse. The environment
behaviour of writeFrame is a parameter; the event list records every call with
the result writeFrame reported and the entry into the receive phase. -/

inductive BusEvent where
  | sent (frameID : Nat) (frame : List Nat) (ok : Bool)
  | receivePhase
deriving DecidableEq, Repr

/-- The observable actions of writePDU up to the receive phase: none when
segmentation does not terminate, otherwise one sent event per frame of the
frameset (in order) followed by the unconditional receive phase. The ok
flag of a sent event is the boolean writeFrame returned; the source ignores
it, so no event and no control flow depends on it. -/
def writePDUevents (writeFrameResult : Nat → List Nat → Bool) (NAD : Nat)
    (payload : List Nat) : Option (List BusEvent) :=
  match framesetFromPayload NAD payload with
  | none => none
  | some fs =>
      some (fs.map (fun f => BusEvent.sent 0x3C f (writeFrameResult 0x3C f)) ++
        [BusEvent.receivePhase])

/-- C5 (amended): writePDU transmits every segment of the segmented request
as a master-request frame (FID 0x3C), in order, before the receive phase;
but writeFrame failures are ignored: whatever results the writeFrame calls
report, every segment is sent and the receive phase is always entered. -/
theorem c5_send_phase (writeFrameResult : Nat → List Nat → Bool) (NAD : Nat)
    (payload : List Nat) (fs : List (List Nat))
    (h : framesetFromPayload NAD payload = some fs) :
    ∃ evs, writePDUevents writeFrameResult NAD payload = some evs ∧
      evs = fs.map (fun f => BusEvent.sent 0x3C f (writeFrameResult 0x3C f)) ++
        [BusEvent.receivePhase] ∧
      evs.getLast? = some BusEvent.receivePhase ∧
      (∀ fid fr ok, BusEvent.sent fid fr ok ∈ evs → fid = 0x3C ∧ fr ∈ fs) ∧
      (∀ f ∈ fs, BusEvent.sent 0x3C f (writeFrameResult 0x3C f) ∈ evs) := by
  refine ⟨_, by rw [writePDUevents, h], rfl, ?_, ?_, ?_⟩
  · exact List.getLast?_concat _
  · intro fid fr ok hmem
    rcases List.mem_append.mp hmem with hmem | hmem
    · obtain ⟨f, hf, heq⟩ := List.mem_map.mp hmem
      injection heq with h1 h2 h3
      subst h1
      subst h2
      exact ⟨rfl, hf⟩
    · simp at hmem
  · intro f hf
    exact List.mem_append_left _ (List.mem_map.mpr ⟨f, hf, rfl⟩)

/-- Witness for C5 at the 14-byte payload of spec.md scenario 6. -/
theorem c5_send_phase_witness :
    framesetFromPayload 0x7F (List.replicate 14 (0x11 : Nat)) =
      some [[0x7F, 0x10, 0x0E, 0x11, 0x11, 0x11, 0x11, 0x11],
            [0x7F, 0x21, 0x11, 0x11, 0x11, 0x11, 0x11, 0x11],
            [0x7F, 0x22, 0x11, 0x11, 0x11, 0xFF, 0xFF, 0xFF]] ∧
    ∃ evs, writePDUevents (fun _ _ => true) 0x7F (List.replicate 14 (0x11 : Nat)) =
        some evs ∧
      evs = [[0x7F, 0x10, 0x0E, 0x11, 0x11, 0x11, 0x11, 0x11],
             [0x7F, 0x21, 0x11, 0x11, 0x11, 0x11, 0x11, 0x11],
             [0x7F, 0x22, 0x11, 0x11, 0x11, 0xFF, 0xFF, 0xFF]].map
          (fun f => BusEvent.sent 0x3C f true) ++ [BusEvent.receivePhase] ∧
      evs.getLast? = some BusEvent.receivePhase ∧
      (∀ fid fr ok, BusEvent.sent fid fr ok ∈ evs → fid = 0x3C ∧
        fr ∈ [[0x7F, 0x10, 0x0E, 0x11, 0x11, 0x11, 0x11, 0x11],
              [0x7F, 0x21, 0x11, 0x11, 0x11, 0x11, 0x11, 0x11],
              [0x7F, 0x22, 0x11, 0x11, 0x11, 0xFF, 0xFF, 0xFF]]) ∧
      (∀ f ∈ [[0x7F, 0x10, 0x0E, 0x11, 0x11, 0x11, 0x11, 0x11],
              [0x7F, 0x21, 0x11, 0x11, 0x11, 0x11, 0x11, 0x11],
              [0x7F, 0x22, 0x11, 0x11, 0x11, 0xFF, 0xFF, 0xFF]],
        BusEvent.sent 0x3C f true ∈ evs) := by
  have h : framesetFromPayload 0x7F (List.replicate 14 (0x11 : Nat)) =
      some [[0x7F, 0x10, 0x0E, 0x11, 0x11, 0x11, 0x11, 0x11],
            [0x7F, 0x21, 0x11, 0x11, 0x11, 0x11, 0x11, 0x11],
            [0x7F, 0x22, 0x11, 0x11, 0x11, 0xFF, 0xFF, 0xFF]] := by decide
  have hmap := c5_send_phase (fun _ _ => true) 0x7F (List.replicate 14 (0x11 : Nat)) _ h
  simp only at hmap
  exact ⟨h, hmap⟩

/-- C5 counterexample: with every writeFrame call reporting failure (third
component false on every sent event), writePDU still sends all three segments of
a 14-byte request and still enters the receive phase, while the claim
requires aborting with Err after the first failed transmission without
entering the receive phase. -/
theorem c5_counterexample :
    writePDUevents (fun _ _ => false) 0x7F (List.replicate 14 (0x11 : Nat)) =
      some [BusEvent.sent 0x3C [0x7F, 0x10, 0x0E, 0x11, 0x11, 0x11, 0x11, 0x11] false,
            BusEvent.sent 0x3C [0x7F, 0x21, 0x11, 0x11, 0x11, 0x11, 0x11, 0x11] false,
            BusEvent.sent 0x3C [0x7F, 0x22, 0x11, 0x11, 0x11, 0xFF, 0xFF, 0xFF] false,
            BusEvent.receivePhase] := by
  decide

/-! ## FrameReader byte state machine
(src/src/LinFrameTransfer.cpp, lines 32..180)

The reader is constructed with an expected ProtectedID, an expected data
length and a checksum function; processByte advances the state on each
received byte. reset() returns to WaitForBreak and clears the buffer. -/

inductive RState where
  | waitBreak
  | waitSync
  | waitPID
  | waitData
  | waitChk
  | complete
deriving DecidableEq, Repr

structure Reader where
  state : RState
  rxData : List Nat
deriving DecidableEq, Repr

/-- FrameReader::processByte. WaitForData pushes the byte first and then
compares the buffer size against the expected length; WaitForChkSum
compares the byte against the checksum function applied to the protected ID
and the buffered data, entering FrameComplete on equality and resetting on
mismatch; a byte in FrameComplete leaves the reader unchanged (the switch
has no case for it). -/
def processByte (pid len : Nat) (chk : Nat → List Nat → Nat) (r : Reader)
    (b : Nat) : Reader :=
  match r.state with
  | RState.waitBreak => if b = 0x00 then { r with state := RState.waitSync } else r
  | RState.waitSync => if b = 0x55 then { r with state := RState.waitPID }
      else ⟨RState.waitBreak, []⟩
  | RState.waitPID => if b = pid then { r with state := RState.waitData }
      else ⟨RState.waitBreak, []⟩
  | RState.waitData =>
      if len ≤ (r.rxData ++ [b]).length then ⟨RState.waitChk, r.rxData ++ [b]⟩
      else ⟨RState.waitData, r.rxData ++ [b]⟩
  | RState.waitChk =>
      if b = chk pid r.rxData then ⟨RState.complete, r.rxData⟩
      else ⟨RState.waitBreak, []⟩
  | RState.complete => r

/-- The byte-consuming loop of receiveFrameExtractData: while the reader has
not finished, feed it the next byte. Returns the final reader and the most
recently consumed byte (none when no byte was consumed). -/
def readerRun (pid len : Nat) (chk : Nat → List Nat → Nat) :
    Reader → List Nat → Reader × Option Nat
  | r, [] => (r, none)
  | r, b :: bs =>
      if r.state = RState.complete then (r, none)
      else
        let res := readerRun pid len chk (processByte pid len chk r b) bs
        (res.1, some (res.2.getD b))

/-- The buffer size discipline of the reader: empty before the data phase,
short of the expected length while collecting, exactly the expected length
from WaitForChkSum on. -/
def readerInv (n : Nat) (r : Reader) : Prop :=
  match r.state with
  | RState.waitBreak => r.rxData = []
  | RState.waitSync => r.rxData = []
  | RState.waitPID => r.rxData = []
  | RState.waitData => r.rxData.length < n
  | RState.waitChk => r.rxData.length = n
  | RState.complete => r.rxData.length = n

lemma processByte_inv (pid n : Nat) (chk : Nat → List Nat → Nat) (r : Reader)
    (b : Nat) (hn : 1 ≤ n) (h : readerInv n r) :
    readerInv n (processByte pid n chk r b) := by
  obtain ⟨st, buf⟩ := r
  cases st with
  | waitBreak =>
      simp only [readerInv] at h
      by_cases hb : b = 0x00 <;> simp [processByte, readerInv, hb, h]
  | waitSync =>
      simp only [readerInv] at h
      by_cases hb : b = 0x55 <;> simp [processByte, readerInv, hb, h]
  | waitPID =>
      simp only [readerInv] at h
      by_cases hb : b = pid <;> simp [processByte, readerInv, hb, h]
      omega
  | waitData =>
      simp only [readerInv] at h
      simp only [processByte]
      split
      all_goals
        rename_i hl
        simp only [readerInv]
        simp only [List.length_append, List.length_cons, List.length_nil] at hl ⊢
        omega
  | waitChk =>
      simp only [readerInv] at h
      by_cases hb : b = chk pid buf <;> simp [processByte, readerInv, hb, h]
  | complete =>
      simp only [readerInv] at h
      simp [processByte, readerInv, h]

lemma processByte_complete_from (pid n : Nat) (chk : Nat → List Nat → Nat)
    (r : Reader) (b : Nat)
    (h2 : (processByte pid n chk r b).state = RState.complete)
    (h3 : r.state ≠ RState.complete) :
    r.state = RState.waitChk ∧ b = chk pid r.rxData ∧
      (processByte pid n chk r b).rxData = r.rxData := by
  obtain ⟨st, buf⟩ := r
  cases st <;> simp only [processByte] at h2 ⊢ <;> first
    | (exact absurd rfl h3)
    | (split at h2 <;> simp_all)

lemma readerRun_of_complete (pid n : Nat) (chk : Nat → List Nat → Nat)
    (r : Reader) (bs : List Nat) (h : r.state = RState.complete) :
    readerRun pid n chk r bs = (r, none) := by
  cases bs with
  | nil => rfl
  | cons b bs => simp [readerRun, h]

lemma readerRun_complete_props (pid n : Nat) (chk : Nat → List Nat → Nat) :
    ∀ (bs : List Nat) (r : Reader), readerInv n r → 1 ≤ n →
      r.state ≠ RState.complete →
      (readerRun pid n chk r bs).1.state = RState.complete →
      (readerRun pid n chk r bs).1.rxData.length = n ∧
        (readerRun pid n chk r bs).2 =
          some (chk pid (readerRun pid n chk r bs).1.rxData) := by
  intro bs
  induction bs with
  | nil =>
      intro r hinv hn hnc hc
      exact absurd hc hnc
  | cons b bs ih =>
      intro r hinv hn hnc hc
      simp only [readerRun, if_neg hnc] at hc ⊢
      have hinv2 := processByte_inv pid n chk r b hn hinv
      by_cases h2 : (processByte pid n chk r b).state = RState.complete
      · rw [readerRun_of_complete pid n chk _ bs h2] at hc ⊢
        obtain ⟨hwc, hb, hdata⟩ := processByte_complete_from pid n chk r b h2 hnc
        constructor
        · simp only [readerInv, h2] at hinv2
          exact hinv2
        · simp only [Option.getD_none]
          rw [hdata, hb]
      · obtain ⟨hlen, hlast⟩ := ih (processByte pid n chk r b) hinv2 hn h2 hc
        refine ⟨hlen, ?_⟩
        rw [hlast]
        simp

/-- C8 (amended): for every byte sequence fed to a FrameReader constructed
with expected PID pid, a checksum function and an expected data length of at
least 1: when the consuming loop ends in FrameComplete, the data buffer
holds exactly the expected number of bytes and the most recently consumed
byte equals the checksum function applied to (pid, buffer); FrameComplete
is entered only from WaitForChkSum on checksum equality with the buffer
unchanged; and a checksum mismatch resets the machine to WaitForBreak with
an empty buffer. (With expected length 0 the WaitForData state still pushes
one byte before comparing, so FrameComplete is reached with one buffered
byte, see c8_counterexample.) -/
theorem c8_frameReader_invariant (pid n : Nat) (chk : Nat → List Nat → Nat)
    (bs : List Nat) (r : Reader) (b : Nat) (hn : 1 ≤ n) :
    ((readerRun pid n chk ⟨RState.waitBreak, []⟩ bs).1.state = RState.complete →
      (readerRun pid n chk ⟨RState.waitBreak, []⟩ bs).1.rxData.length = n ∧
        (readerRun pid n chk ⟨RState.waitBreak, []⟩ bs).2 =
          some (chk pid (readerRun pid n chk ⟨RState.waitBreak, []⟩ bs).1.rxData)) ∧
    ((processByte pid n chk r b).state = RState.complete →
      r.state ≠ RState.complete →
      r.state = RState.waitChk ∧ b = chk pid r.rxData ∧
        (processByte pid n chk r b).rxData = r.rxData) ∧
    (r.state = RState.waitChk → b ≠ chk pid r.rxData →
      processByte pid n chk r b = ⟨RState.waitBreak, []⟩) := by
  refine ⟨?_, ?_, ?_⟩
  · intro hc
    exact readerRun_complete_props pid n chk bs ⟨RState.waitBreak, []⟩ rfl hn
      (by simp) hc
  · intro h2 h3
    exact processByte_complete_from pid n chk r b h2 h3
  · intro hwc hne
    obtain ⟨st, buf⟩ := r
    simp only at hwc
    subst hwc
    simp only [processByte]
    rw [if_neg hne]

/-- Witness for C8: reading the frame 00 55 00 AB 54 with PID 0x00 and
expected length 1 completes with the one data byte 0xAB and checksum 0x54. -/
theorem c8_frameReader_invariant_witness :
    (1 : Nat) ≤ 1 ∧
    (((readerRun 0x00 1 getChecksumLin2x ⟨RState.waitBreak, []⟩
          [0x00, 0x55, 0x00, 0xAB, 0x54]).1.state = RState.complete →
      (readerRun 0x00 1 getChecksumLin2x ⟨RState.waitBreak, []⟩
          [0x00, 0x55, 0x00, 0xAB, 0x54]).1.rxData.length = 1 ∧
        (readerRun 0x00 1 getChecksumLin2x ⟨RState.waitBreak, []⟩
            [0x00, 0x55, 0x00, 0xAB, 0x54]).2 =
          some (getChecksumLin2x 0x00
            (readerRun 0x00 1 getChecksumLin2x ⟨RState.waitBreak, []⟩
              [0x00, 0x55, 0x00, 0xAB, 0x54]).1.rxData)) ∧
    ((processByte 0x00 1 getChecksumLin2x ⟨RState.waitChk, [0xAB]⟩ 0x54).state =
        RState.complete →
      (⟨RState.waitChk, [0xAB]⟩ : Reader).state ≠ RState.complete →
      (⟨RState.waitChk, [0xAB]⟩ : Reader).state = RState.waitChk ∧
        (0x54 : Nat) = getChecksumLin2x 0x00 (⟨RState.waitChk, [0xAB]⟩ : Reader).rxData ∧
        (processByte 0x00 1 getChecksumLin2x ⟨RState.waitChk, [0xAB]⟩ 0x54).rxData =
          (⟨RState.waitChk, [0xAB]⟩ : Reader).rxData) ∧
    ((⟨RState.waitChk, [0xAB]⟩ : Reader).state = RState.waitChk →
      (0x54 : Nat) ≠ getChecksumLin2x 0x00 (⟨RState.waitChk, [0xAB]⟩ : Reader).rxData →
      processByte 0x00 1 getChecksumLin2x ⟨RState.waitChk, [0xAB]⟩ 0x54 =
        ⟨RState.waitBreak, []⟩)) :=
  ⟨Nat.le_refl 1,
   c8_frameReader_invariant 0x00 1 getChecksumLin2x [0x00, 0x55, 0x00, 0xAB, 0x54]
     ⟨RState.waitChk, [0xAB]⟩ 0x54 (Nat.le_refl 1)⟩

/-- C8 counterexample: a FrameReader constructed with expected data length 0
and the LIN 2.x checksum function reaches FrameComplete with ONE byte in the
buffer (WaitForData pushes the byte before comparing the size against the
expected length), contradicting the claim that the Complete state holds
only with exactly n = 0 buffered bytes. -/
theorem c8_counterexample :
    (readerRun 0x00 0 getChecksumLin2x ⟨RState.waitBreak, []⟩
        [0x00, 0x55, 0x00, 0x00, 0xFF]).1.state = RState.complete ∧
    (readerRun 0x00 0 getChecksumLin2x ⟨RState.waitBreak, []⟩
        [0x00, 0x55, 0x00, 0x00, 0xFF]).1.rxData.length = 1 := by
  decide

/-! ## Node configuration layer (src/src/LinNodeConfig.cpp) -/

/-- Arduino lowByte: least significant byte. -/
def lowByte (x : Nat) : Nat :=
  x &&& 0xFF

/-- Arduino highByte: second least significant byte. -/
def highByte (x : Nat) : Nat :=
  (x >>> 8) &&& 0xFF

/-- LinNodeConfig::getRSID (src/src/LinNodeConfig.cpp lines 365..370):
RSID = SID + 0x40 in uint8_t arithmetic. -/
def getRSID (SID : Nat) : Nat :=
  (SID + 0x40) % 256

/-- CMD_Identifier::PRODUCT_ID (src/src/LinNodeConfig.hpp). -/
def CMD_PRODUCT_ID : Nat := 0x00

/-- CMD_Identifier::SERIAL_NUMBER (src/src/LinNodeConfig.hpp). -/
def CMD_SERIAL_NUMBER : Nat := 0x01

/-- The classification LinNodeConfig::checkPayload_isValid makes
(src/src/LinNodeConfig.cpp lines 315..359): positive on a matching RSID;
negative with the contained SID and error code reported to the debug stream
when the response is a well-formed negative response (magic number 0x7F,
at least sizeof(Error) = 3 bytes); malformed otherwise. The function
returns true exactly in the positive case. -/
inductive CheckResult where
  | positive
  | negative (sid errorCode : Nat)
  | malformed
deriving DecidableEq, Repr

def checkPayload (SID : Nat) (payload : Option (List Nat)) : CheckResult :=
  match payload with
  | none => CheckResult.malformed
  | some [] => CheckResult.malformed
  | some (h :: t) =>
      if h = getRSID SID then CheckResult.positive
      else if (h :: t).length < 3 then CheckResult.malformed
      else if h ≠ 0x7F then CheckResult.malformed
      else CheckResult.negative t.headI (t.getD 1 0)

def checkPayload_isValid (SID : Nat) (payload : Option (List Nat)) : Bool :=
  match checkPayload SID payload with
  | CheckResult.positive => true
  | _ => false

/-- LinNodeConfig::readSerialNumber request payload
(src/src/LinNodeConfig.cpp lines 143..151): SID READ_BY_ID (0xB2) followed
by the sub-identifier and the low/high bytes of the supplier and function
identifiers. The source passes CMD_Identifier::PRODUCT_ID (0x00) as the
sub-identifier, not SERIAL_NUMBER (0x01). -/
def readSerialNumber_request (supplierId functionId : Nat) : List Nat :=
  [0xB2, CMD_PRODUCT_ID, lowByte supplierId, highByte supplierId,
   lowByte functionId, highByte functionId]

/-- LinNodeConfig::readSerialNumber response decoding (lines 159..177): the
32-bit serial number assembled little-endian from response bytes 1..4. -/
def readSerialNumber_decode (raw : List Nat) : Nat :=
  (raw.getD 4 0) <<< 24 ||| (raw.getD 3 0) <<< 16 |||
    (raw.getD 2 0) <<< 8 ||| raw.getD 1 0

/-- C4: readSerialNumber builds the transport request and decodes a positive
response. Decoding is little-endian from bytes 1..4 as the claim states, but
the request carries sub-identifier 0x00 (CMD_Identifier::PRODUCT_ID), not
the 0x01 (SERIAL_NUMBER) the claim -- and the source doc comment, which
promises the serial number -- require: the second payload byte of the
request built for supplier 0x2E06 and function 0x1080 is 0x00. -/
theorem c4_serial_request_and_decode :
    readSerialNumber_request 0x2E06 0x1080 =
      [0xB2, 0x00, 0x06, 0x2E, 0x80, 0x10] ∧
    (readSerialNumber_request 0x2E06 0x1080).getD 1 0xFF ≠ CMD_SERIAL_NUMBER ∧
    readSerialNumber_decode [0xF2, 0x10, 0x56, 0xE1, 0x80] = 0x80E15610 := by
  decide

/-- C9 (amended): checkPayload_isValid(sid, raw) is positive exactly when
raw is present, non-empty and its first byte equals (sid + 0x40) mod 256 --
which coincides with sid | 0x40 for the node-configuration SIDs 0xB0..0xB7,
whose 0x40 bit is clear, but not for every byte (see c9_counterexample);
and whenever raw has at least 3 bytes, starts with 0x7F and is not positive,
the negative response code is parsed from raw[2] (and the contained SID from
raw[1]) and reported, and the function returns false. -/
theorem c9_checkPayload_classification (SID : Nat) (raw : Option (List Nat)) :
    (checkPayload_isValid SID raw = true ↔
      ∃ p, raw = some p ∧ p ≠ [] ∧ p.headI = (SID + 0x40) % 256) ∧
    (∀ p, raw = some p → 3 ≤ p.length → p.headI = 0x7F →
      p.headI ≠ (SID + 0x40) % 256 →
      checkPayload SID raw = CheckResult.negative (p.getD 1 0) (p.getD 2 0) ∧
      checkPayload_isValid SID raw = false) := by
  constructor
  · constructor
    · intro h
      cases raw with
      | none => simp [checkPayload_isValid, checkPayload] at h
      | some p =>
          cases p with
          | nil => simp [checkPayload_isValid, checkPayload] at h
          | cons hd tl =>
              refine ⟨hd :: tl, rfl, by simp, ?_⟩
              by_cases h1 : hd = getRSID SID
              · simpa [List.headI, getRSID] using h1
              · exfalso
                cases hcp : checkPayload SID (some (hd :: tl)) with
                | positive =>
                    simp only [checkPayload, if_neg h1] at hcp
                    split at hcp
                    · exact absurd hcp (by simp)
                    · split at hcp <;> simp_all
                | negative s e =>
                    simp only [checkPayload_isValid, hcp] at h
                    exact absurd h (by simp)
                | malformed =>
                    simp only [checkPayload_isValid, hcp] at h
                    exact absurd h (by simp)
    · rintro ⟨p, rfl, hne, hrs⟩
      cases p with
      | nil => exact absurd rfl hne
      | cons hd tl =>
          simp only [List.headI] at hrs
          simp [checkPayload_isValid, checkPayload, getRSID, hrs]
  · rintro p rfl h3 h7f hneq
    cases p with
    | nil => simp at h3
    | cons hd tl =>
        simp only [List.headI] at h7f hneq
        have hx : ¬ hd = getRSID SID := by simpa [getRSID] using hneq
        have hlen : ¬ (hd :: tl).length < 3 := by
          simpa using Nat.not_lt.mpr h3
        have h127 : ¬ hd ≠ 0x7F := by simp [h7f]
        constructor
        · simp only [checkPayload, if_neg hx, if_neg hlen, if_neg h127]
          have ht1 : tl.headI = (hd :: tl).getD 1 0 := by
            cases tl <;> simp [List.headI]
          have ht2 : tl.getD 1 0 = (hd :: tl).getD 2 0 := by
            cases tl <;> simp
          rw [ht1, ht2]
        · simp only [checkPayload_isValid, checkPayload, if_neg hx, if_neg hlen,
            if_neg h127]

/-- Witness for C9 at SID 0xB2 and a concrete negative response. -/
theorem c9_checkPayload_classification_witness :
    (checkPayload_isValid 0xB2 (some [0x7F, 0xB2, 0x11]) = true ↔
      ∃ p, (some [0x7F, 0xB2, 0x11] : Option (List Nat)) = some p ∧ p ≠ [] ∧
        p.headI = (0xB2 + 0x40) % 256) ∧
    (∀ p, (some [0x7F, 0xB2, 0x11] : Option (List Nat)) = some p →
      3 ≤ p.length → p.headI = 0x7F → p.headI ≠ (0xB2 + 0x40) % 256 →
      checkPayload 0xB2 (some [0x7F, 0xB2, 0x11]) =
        CheckResult.negative (p.getD 1 0) (p.getD 2 0) ∧
      checkPayload_isValid 0xB2 (some [0x7F, 0xB2, 0x11]) = false) :=
  c9_checkPayload_classification 0xB2 (some [0x7F, 0xB2, 0x11])

/-- C9 counterexample: for SID 0x40 the claim, which compares against
sid | 0x40 = 0x40, accepts the one-byte response [0x40] as positive; the
source compares against SID + 0x40 = 0x80 and rejects it. -/
theorem c9_counterexample :
    checkPayload_isValid 0x40 (some [0x40]) = false ∧
    ((0x40 : Nat) ||| 0x40) = 0x40 ∧
    (some [(0x40 : Nat)] : Option (List Nat)) ≠ none ∧
    ([0x40] : List Nat) ≠ [] ∧
    ([0x40] : List Nat).headI = 0x40 := by
  decide

/-- C10: evaluating the code at the failing input. A slave single-frame
response of announced length 1 carrying only the RSID byte 0xF2 passes the
whole pipeline: readPduResponse assembles the one-byte payload [0xF2],
checkPayload_isValid(0xB2, [0xF2]) accepts it as positive, yet the payload
has fewer than 6 bytes, so the five unconditional reads of response bytes
1..5 readById performs next (src/src/LinNodeConfig.cpp lines 79..85) are
out of bounds -- even index 1 does not exist. -/
theorem c10_short_response_accepted :
    readPduResponse 0x01 0 [some [0x01, 0x01, 0xF2, 0xFF, 0xFF, 0xFF, 0xFF, 0xFF]] =
      some ([0xF2], 0x01) ∧
    checkPayload_isValid 0xB2 (some [0xF2]) = true ∧
    ([0xF2] : List Nat).length < 6 ∧
    ([0xF2] : List Nat).get? 1 = none := by
  decide

end Lin
